import Mathlib

/-!
Verification of the Saga order system orchestrator
(`orchestrator/main.go`).

The orchestrator keeps an in-memory map of `Transaction` records guarded
by one mutex, appends `Step` records as a ledger, and runs the forward
sequence CREATE_ORDER → PROCESS_PAYMENT → START_SHIPPING with
compensations REFUND_PAYMENT / CANCEL_ORDER on failure.

Modelling choices:
* timestamps (`time.Time`) are modelled as `Nat` ticks; the Go zero
  value of an end/completion timestamp ("unset", `omitempty`) is `none`;
* `float64` amounts are modelled as `Rat` (only ordering and equality of
  amounts matter to the orchestrator);
* the serialized HTTP exchange with a participant service is abstracted
  into a `CallResult`: either a transport-level failure (`http.Post`,
  body read or `json.Unmarshal` error, all of which the Go code treats
  identically) or a parsed response envelope `{success, message, id}`;
* the Go map is a function `String → Option Transaction`; map
  assignment is `setTx`; reading a missing key yields the zero value
  (`zeroTransaction`), as in Go.
-/

/-- `TransactionStatusPending` (main.go line 23). -/
def TransactionStatusPending : String := "PENDING"

/-- `TransactionStatusCompleted` (main.go line 24). -/
def TransactionStatusCompleted : String := "COMPLETED"

/-- `TransactionStatusFailed` (main.go line 25). -/
def TransactionStatusFailed : String := "FAILED"

/-- `Step` (main.go lines 43-49): one ledger entry of a saga transaction. -/
structure Step where
  name : String
  status : String
  startedAt : Nat
  endedAt : Option Nat
  error : String
deriving Repr, DecidableEq

/-- `Item` (main.go lines 60-65). -/
structure Item where
  id : String
  name : String
  price : Rat
  quantity : Int
deriving Repr, DecidableEq

/-- `Transaction` (main.go lines 29-40): one saga transaction. -/
structure Transaction where
  id : String
  orderID : String
  customerID : String
  amount : Rat
  address : String
  status : String
  createdAt : Nat
  completedAt : Option Nat
  failureReason : String
  steps : List Step
deriving Repr, DecidableEq

/-- The Go zero value of `Transaction` (what `transactions[k]` yields for a
missing key `k`). -/
def zeroTransaction : Transaction :=
  { id := "", orderID := "", customerID := "", amount := 0, address := ""
    status := "", createdAt := 0, completedAt := none, failureReason := ""
    steps := [] }

/-- `CreateOrderRequest` (main.go lines 52-57). -/
structure CreateOrderRequest where
  customerID : String
  items : List Item
  amount : Rat
  address : String
deriving Repr, DecidableEq

/-- Outcome of one HTTP exchange with a participant service: a
transport-level error (connection, body read or JSON decode failure —
branches the Go code treats identically), or a parsed response envelope
with its `success` flag, `message`, and domain id. -/
inductive CallResult where
  | transportErr (msg : String)
  | reply (success : Bool) (message : String) (respID : String)
deriving Repr, DecidableEq

/-- What each participant service answers during one saga run: one
`CallResult` per remote operation the orchestrator may invoke. -/
structure SagaEnv where
  createOrderRes : CallResult
  processPaymentRes : CallResult
  startShippingRes : CallResult
  refundPaymentRes : CallResult
  cancelOrderRes : CallResult
  cancelShippingRes : CallResult
deriving Repr, DecidableEq

/-- The orchestrator's shared state (main.go lines 101-105): the
`transactions` map and the `nextID` counter. -/
structure OrchState where
  transactions : String → Option Transaction
  nextID : Nat

/-- Go map assignment `transactions[id] = tx`. -/
def setTx (m : String → Option Transaction) (id : String) (tx : Transaction) :
    String → Option Transaction :=
  fun x => if x = id then some tx else m x

/-- `addStep` (main.go lines 486-504): append a PENDING step with a start
timestamp; silently dropped when the transaction is missing. -/
def addStep (st : OrchState) (transactionID stepName : String) (now : Nat) :
    OrchState :=
  match st.transactions transactionID with
  | none => st
  | some transaction =>
      let step : Step :=
        { name := stepName, status := TransactionStatusPending
          startedAt := now, endedAt := none, error := "" }
      let transaction := { transaction with steps := transaction.steps ++ [step] }
      { st with transactions := setTx st.transactions transactionID transaction }

/-- The loop body of `updateStepStatus` (main.go lines 515-526): walk the
steps in order and update the first one whose name matches, then stop
(`break`). The Go loop does not look at `EndedAt`. -/
def updateSteps (steps : List Step) (stepName : String) (success : Bool)
    (errorMsg : String) (now : Nat) : List Step :=
  match steps with
  | [] => []
  | step :: rest =>
      if step.name = stepName then
        (if success then
          { step with status := TransactionStatusCompleted, endedAt := some now }
         else
          { step with status := TransactionStatusFailed, error := errorMsg
                      endedAt := some now }) :: rest
      else
        step :: updateSteps rest stepName success errorMsg now

/-- `updateStepStatus` (main.go lines 506-530): close a ledger step; no-op
when the transaction is missing. -/
def updateStepStatus (st : OrchState) (transactionID stepName : String)
    (success : Bool) (errorMsg : String) (now : Nat) : OrchState :=
  match st.transactions transactionID with
  | none => st
  | some transaction =>
      let transaction :=
        { transaction with
            steps := updateSteps transaction.steps stepName success errorMsg now }
      { st with transactions := setTx st.transactions transactionID transaction }

/-- `updateTransactionStatus` (main.go lines 532-551): set the overall
status; COMPLETED also stamps `completedAt`; FAILED also stamps
`completedAt` and records the failure reason; no-op when the transaction
is missing. -/
def updateTransactionStatus (st : OrchState) (transactionID status failureReason : String)
    (now : Nat) : OrchState :=
  match st.transactions transactionID with
  | none => st
  | some transaction =>
      let t1 := { transaction with status := status }
      let t2 :=
        if status = TransactionStatusCompleted then
          { t1 with completedAt := some now }
        else if status = TransactionStatusFailed then
          { t1 with failureReason := failureReason, completedAt := some now }
        else t1
      { st with transactions := setTx st.transactions transactionID t2 }

/-- The order-id write of `executeSaga` (main.go lines 221-225):
`transaction := transactions[transactionID]; transaction.OrderID = orderID;
transactions[transactionID] = transaction`. A missing key reads the Go
zero value. -/
def setOrderID (st : OrchState) (transactionID orderID : String) : OrchState :=
  let transaction := (st.transactions transactionID).getD zeroTransaction
  let transaction := { transaction with orderID := orderID }
  { st with transactions := setTx st.transactions transactionID transaction }


/-- `createOrder` (main.go lines 251-300): ledger a CREATE_ORDER step, call
the Order participant, close the step from the outcome; returns the order
id or the error text (`fmt.Errorf(orderResp.Message)` for a `success=false`
envelope). -/
def createOrder (env : SagaEnv) (st : OrchState) (transactionID : String)
    (now : Nat) : OrchState × Except String String :=
  let st := addStep st transactionID "CREATE_ORDER" now
  match env.createOrderRes with
  | .transportErr msg =>
      (updateStepStatus st transactionID "CREATE_ORDER" false msg (now + 1), .error msg)
  | .reply success message orderID =>
      if success then
        (updateStepStatus st transactionID "CREATE_ORDER" true "" (now + 1), .ok orderID)
      else
        (updateStepStatus st transactionID "CREATE_ORDER" false message (now + 1),
         .error message)

/-- `processPayment` (main.go lines 302-350): ledger a PROCESS_PAYMENT step,
call the Payment participant, close the step from the outcome. -/
def processPayment (env : SagaEnv) (st : OrchState) (transactionID : String)
    (now : Nat) : OrchState × Except String Unit :=
  let st := addStep st transactionID "PROCESS_PAYMENT" now
  match env.processPaymentRes with
  | .transportErr msg =>
      (updateStepStatus st transactionID "PROCESS_PAYMENT" false msg (now + 1), .error msg)
  | .reply success message _ =>
      if success then
        (updateStepStatus st transactionID "PROCESS_PAYMENT" true "" (now + 1), .ok ())
      else
        (updateStepStatus st transactionID "PROCESS_PAYMENT" false message (now + 1),
         .error message)

/-- `startShipping` (main.go lines 352-400): ledger a START_SHIPPING step,
call the Shipping participant, close the step from the outcome. -/
def startShipping (env : SagaEnv) (st : OrchState) (transactionID : String)
    (now : Nat) : OrchState × Except String Unit :=
  let st := addStep st transactionID "START_SHIPPING" now
  match env.startShippingRes with
  | .transportErr msg =>
      (updateStepStatus st transactionID "START_SHIPPING" false msg (now + 1), .error msg)
  | .reply success message _ =>
      if success then
        (updateStepStatus st transactionID "START_SHIPPING" true "" (now + 1), .ok ())
      else
        (updateStepStatus st transactionID "START_SHIPPING" false message (now + 1),
         .error message)

/-- `cancelOrder` (main.go lines 402-428): ledger a CANCEL_ORDER step and
call the Order participant. The Go code closes the step as COMPLETED
whenever `http.Post` itself succeeds — the response body is never read,
so a `success=false` envelope is still ledgered COMPLETED. Only a
transport error is ledgered FAILED. -/
def cancelOrder (env : SagaEnv) (st : OrchState) (transactionID : String)
    (now : Nat) : OrchState :=
  let st := addStep st transactionID "CANCEL_ORDER" now
  match env.cancelOrderRes with
  | .transportErr msg =>
      updateStepStatus st transactionID "CANCEL_ORDER" false msg (now + 1)
  | .reply _ _ _ =>
      updateStepStatus st transactionID "CANCEL_ORDER" true "" (now + 1)

/-- `refundPayment` (main.go lines 430-456): same shape as `cancelOrder` —
the response body is never read; only a transport error is ledgered
FAILED. -/
def refundPayment (env : SagaEnv) (st : OrchState) (transactionID : String)
    (now : Nat) : OrchState :=
  let st := addStep st transactionID "REFUND_PAYMENT" now
  match env.refundPaymentRes with
  | .transportErr msg =>
      updateStepStatus st transactionID "REFUND_PAYMENT" false msg (now + 1)
  | .reply _ _ _ =>
      updateStepStatus st transactionID "REFUND_PAYMENT" true "" (now + 1)

/-- `cancelShipping` (main.go lines 458-484): defined but never called by
`executeSaga`; same shape as the other compensations. -/
def cancelShipping (env : SagaEnv) (st : OrchState) (transactionID : String)
    (now : Nat) : OrchState :=
  let st := addStep st transactionID "CANCEL_SHIPPING" now
  match env.cancelShippingRes with
  | .transportErr msg =>
      updateStepStatus st transactionID "CANCEL_SHIPPING" false msg (now + 1)
  | .reply _ _ _ =>
      updateStepStatus st transactionID "CANCEL_SHIPPING" true "" (now + 1)

/-- `executeSaga` (main.go lines 212-249): the forward sequence
CREATE_ORDER → record order id → PROCESS_PAYMENT → START_SHIPPING, with
compensations CANCEL_ORDER (payment failure) and REFUND_PAYMENT then
CANCEL_ORDER (shipping failure), ending in one `updateTransactionStatus`
call. Each primitive store operation consumes one clock tick. -/
def executeSaga (env : SagaEnv) (st : OrchState) (transactionID : String)
    (now : Nat) : OrchState :=
  match createOrder env st transactionID now with
  | (st, .error err) =>
      updateTransactionStatus st transactionID TransactionStatusFailed
        ("Failed to create order: " ++ err) (now + 2)
  | (st, .ok orderID) =>
      let st := setOrderID st transactionID orderID
      match processPayment env st transactionID (now + 3) with
      | (st, .error err) =>
          let st := cancelOrder env st transactionID (now + 5)
          updateTransactionStatus st transactionID TransactionStatusFailed
            ("Failed to process payment: " ++ err) (now + 7)
      | (st, .ok _) =>
          match startShipping env st transactionID (now + 5) with
          | (st, .error err) =>
              let st := refundPayment env st transactionID (now + 7)
              let st := cancelOrder env st transactionID (now + 9)
              updateTransactionStatus st transactionID TransactionStatusFailed
                ("Failed to start shipping: " ++ err) (now + 11)
          | (st, .ok _) =>
              updateTransactionStatus st transactionID TransactionStatusCompleted ""
                (now + 7)

/-- Decimal digits of `n`, least significant first, with structural fuel
(the digit loop behind Go's `%d` formatting; any `fuel ≥ n` yields all
digits). -/
def natToRevDigitsAux : Nat → Nat → List Char
  | _, 0 => []
  | 0, _ + 1 => []
  | fuel + 1, n + 1 =>
      Nat.digitChar ((n + 1) % 10) :: natToRevDigitsAux fuel ((n + 1) / 10)

/-- Decimal digits of `n`, least significant first. -/
def natToRevDigits (n : Nat) : List Char := natToRevDigitsAux n n

/-- Decimal rendering of a natural number (Go's `%d` verb). -/
def natDecimal (n : Nat) : String :=
  if n = 0 then "0" else ⟨(natToRevDigits n).reverse⟩

/-- `fmt.Sprintf("TRX-%d", n)` (main.go line 147). -/
def trxID (n : Nat) : String := "TRX-" ++ natDecimal n

/-- Result of `createOrderSagaHandler` as seen by the HTTP client: a
bad-request rejection with its message, or an accepted (HTTP 202)
response carrying the `Transaction` snapshot. -/
inductive HandlerResult where
  | badRequest (msg : String)
  | accepted (tx : Transaction)
deriving Repr, DecidableEq

/-- Everything `createOrderSagaHandler` produces: the orchestrator state
after the handler returns, the HTTP response, and the saga task spawned
by `go executeSaga(transactionID, req)` (`none` when no task is
spawned). -/
structure HandlerOutcome where
  state : OrchState
  result : HandlerResult
  sagaTask : Option (String × CreateOrderRequest)

/-- `createOrderSagaHandler` (main.go lines 117-177): validate the request,
allocate `TRX-<nextID>`, store a PENDING transaction with an empty step
list, spawn the saga task, and answer with the pre-saga snapshot. -/
def createOrderSagaHandler (st : OrchState) (req : CreateOrderRequest)
    (now : Nat) : HandlerOutcome :=
  if req.customerID = "" then
    { state := st, result := .badRequest "Customer ID is required", sagaTask := none }
  else if req.amount ≤ 0 then
    { state := st, result := .badRequest "Amount must be greater than zero"
      sagaTask := none }
  else if req.address = "" then
    { state := st, result := .badRequest "Shipping address is required"
      sagaTask := none }
  else
    let transactionID := trxID st.nextID
    let transaction : Transaction :=
      { id := transactionID, orderID := "", customerID := req.customerID
        amount := req.amount, address := req.address
        status := TransactionStatusPending, createdAt := now
        completedAt := none, failureReason := "", steps := [] }
    { state :=
        { transactions := setTx st.transactions transactionID transaction
          nextID := st.nextID + 1 }
      result := .accepted transaction
      sagaTask := some (transactionID, req) }

/-- A start-saga request that passes the handler's validation
(main.go lines 132-143). -/
def validReq (req : CreateOrderRequest) : Prop :=
  req.customerID ≠ "" ∧ 0 < req.amount ∧ req.address ≠ ""

instance (req : CreateOrderRequest) : Decidable (validReq req) := by
  unfold validReq; infer_instance

/-- Reading back the key just written (`transactions[id] = tx` then
`transactions[id]`). -/
theorem setTx_lookup_same (m : String → Option Transaction) (id : String)
    (tx : Transaction) : setTx m id tx id = some tx := by
  simp [setTx]

/-- Writing one key leaves every other key unchanged. -/
theorem setTx_lookup_ne (m : String → Option Transaction) (id id' : String)
    (tx : Transaction) (h : id' ≠ id) : setTx m id tx id' = m id' := by
  simp [setTx, h]

/-- Initial orchestrator state (main.go lines 101-105): empty transaction
map, `nextID = 1`. -/
def initState : OrchState := { transactions := fun _ => none, nextID := 1 }

/-- A concrete valid start-saga request, used to instantiate theorems. -/
def testReq : CreateOrderRequest :=
  { customerID := "alice", items := [], amount := 100, address := "addr" }

/-- The transaction `createOrderSagaHandler initState testReq 0` stores. -/
def testTx : Transaction :=
  { id := "TRX-1", orderID := "", customerID := "alice", amount := 100
    address := "addr", status := TransactionStatusPending, createdAt := 0
    completedAt := none, failureReason := "", steps := [] }

/-- A participant environment in which every call succeeds. -/
def envAllOk : SagaEnv :=
  { createOrderRes := .reply true "order created" "ORD-1"
    processPaymentRes := .reply true "payment processed" "PAY-1"
    startShippingRes := .reply true "shipping started" "SHP-1"
    refundPaymentRes := .reply true "refunded" "PAY-1"
    cancelOrderRes := .reply true "cancelled" "ORD-1"
    cancelShippingRes := .reply true "cancelled" "SHP-1" }

/-- **C1.** If the CREATE_ORDER, PROCESS_PAYMENT and START_SHIPPING calls
all succeed, `executeSaga` leaves the transaction COMPLETED with an unset
failure reason and a ledger of exactly three COMPLETED steps in the order
CREATE_ORDER, PROCESS_PAYMENT, START_SHIPPING. -/
theorem executeSaga_all_success (st : OrchState) (req : CreateOrderRequest)
    (env : SagaEnv) (now now' : Nat) (tx : Transaction)
    (hc : req.customerID ≠ "") (ha : 0 < req.amount) (hd : req.address ≠ "")
    (m1 oid : String) (h1 : env.createOrderRes = .reply true m1 oid)
    (m2 i2 : String) (h2 : env.processPaymentRes = .reply true m2 i2)
    (m3 i3 : String) (h3 : env.startShippingRes = .reply true m3 i3)
    (h0 : (createOrderSagaHandler st req now).result = .accepted tx) :
    ∃ fin,
      (executeSaga env (createOrderSagaHandler st req now).state tx.id
          now').transactions tx.id = some fin ∧
      fin.status = TransactionStatusCompleted ∧
      fin.failureReason = "" ∧
      fin.steps.map (fun s => (s.name, s.status)) =
        [("CREATE_ORDER", TransactionStatusCompleted),
         ("PROCESS_PAYMENT", TransactionStatusCompleted),
         ("START_SHIPPING", TransactionStatusCompleted)] := by
  have ha' : ¬ req.amount ≤ 0 := not_le.mpr ha
  rw [createOrderSagaHandler] at h0 ⊢
  simp only [if_neg hc, if_neg ha', if_neg hd] at h0 ⊢
  rw [HandlerResult.accepted.injEq] at h0
  subst h0
  simp [executeSaga, createOrder, h1, processPayment, h2, startShipping, h3,
    addStep, updateStepStatus, updateSteps, setOrderID, updateTransactionStatus,
    setTx, TransactionStatusPending, TransactionStatusCompleted,
    TransactionStatusFailed]

/-- Value of a little-endian decimal digit string (inverse of
`natToRevDigits`, used to prove id rendering injective). -/
def revDigitsToNat : List Char → Nat
  | [] => 0
  | c :: l => (c.toNat - 48) + 10 * revDigitsToNat l

theorem digitChar_val : ∀ d < 10, (Nat.digitChar d).toNat - 48 = d := by decide

theorem revDigitsToNat_aux (fuel : Nat) :
    ∀ n, n ≤ fuel → revDigitsToNat (natToRevDigitsAux fuel n) = n := by
  induction fuel with
  | zero =>
      intro n hn
      have : n = 0 := Nat.le_zero.mp hn
      subst this
      simp [natToRevDigitsAux, revDigitsToNat]
  | succ fuel ih =>
      intro n hn
      match n with
      | 0 => simp [natToRevDigitsAux, revDigitsToNat]
      | m + 1 =>
          have hdiv : (m + 1) / 10 < m + 1 := Nat.div_lt_self (by omega) (by omega)
          rw [natToRevDigitsAux, revDigitsToNat, ih ((m + 1) / 10) (by omega),
            digitChar_val ((m + 1) % 10) (Nat.mod_lt _ (by omega))]
          omega

theorem revDigitsToNat_natToRevDigits (n : Nat) :
    revDigitsToNat (natToRevDigits n) = n :=
  revDigitsToNat_aux n n le_rfl

theorem natDecimal_injective : Function.Injective natDecimal := by
  intro a b h
  unfold natDecimal at h
  by_cases ha : a = 0 <;> by_cases hb : b = 0
  · omega
  · exfalso
    rw [if_pos ha, if_neg hb] at h
    have hd := congrArg String.data h
    have hrev : natToRevDigits b = ['0'] :=
      List.reverse_injective (by simpa using hd.symm)
    have := revDigitsToNat_natToRevDigits b
    rw [hrev] at this
    simp [revDigitsToNat] at this
    omega
  · exfalso
    rw [if_neg ha, if_pos hb] at h
    have hd := congrArg String.data h
    have hrev : natToRevDigits a = ['0'] :=
      List.reverse_injective (by simpa using hd)
    have := revDigitsToNat_natToRevDigits a
    rw [hrev] at this
    simp [revDigitsToNat] at this
    omega
  · rw [if_neg ha, if_neg hb] at h
    have hd := congrArg String.data h
    have : natToRevDigits a = natToRevDigits b :=
      List.reverse_injective (by simpa using hd)
    calc a = revDigitsToNat (natToRevDigits a) :=
            (revDigitsToNat_natToRevDigits a).symm
      _ = revDigitsToNat (natToRevDigits b) := by rw [this]
      _ = b := revDigitsToNat_natToRevDigits b

theorem trxID_injective : Function.Injective trxID := by
  intro a b h
  apply natDecimal_injective
  apply String.ext
  have hd := congrArg String.data h
  simpa [trxID, String.data_append] using hd

/-- Splitting a concatenated string literal off a failure reason. -/
theorem prependEq (a b ab : String) (h : a ++ b = ab) (s : String) :
    ab ++ s = a ++ (b ++ s) := by rw [← h, String.append_assoc]

/-- Witness for `executeSaga_all_success` at the initial state, the test
request and the all-success environment. -/
theorem executeSaga_all_success_witness :
    testReq.customerID ≠ "" ∧ 0 < testReq.amount ∧ testReq.address ≠ "" ∧
    envAllOk.createOrderRes = .reply true "order created" "ORD-1" ∧
    envAllOk.processPaymentRes = .reply true "payment processed" "PAY-1" ∧
    envAllOk.startShippingRes = .reply true "shipping started" "SHP-1" ∧
    (createOrderSagaHandler initState testReq 0).result = .accepted testTx ∧
    (∃ fin,
      (executeSaga envAllOk (createOrderSagaHandler initState testReq 0).state
          testTx.id 0).transactions testTx.id = some fin ∧
      fin.status = TransactionStatusCompleted ∧
      fin.failureReason = "" ∧
      fin.steps.map (fun s => (s.name, s.status)) =
        [("CREATE_ORDER", TransactionStatusCompleted),
         ("PROCESS_PAYMENT", TransactionStatusCompleted),
         ("START_SHIPPING", TransactionStatusCompleted)]) :=
  ⟨by decide, by decide, by decide, rfl, rfl, rfl, by decide,
   executeSaga_all_success initState testReq envAllOk 0 0 testTx (by decide)
     (by decide) (by decide) "order created" "ORD-1" rfl "payment processed"
     "PAY-1" rfl "shipping started" "SHP-1" rfl (by decide)⟩

/-- The two ways a participant call fails in the Go forward-step code,
with the error text the step records: a transport-level failure, or an
explicit `success=false` envelope (whose `message` becomes the error). -/
def failsWith (r : CallResult) (msg : String) : Prop :=
  r = .transportErr msg ∨ ∃ rid, r = .reply false msg rid

/-- **C2.** If CREATE_ORDER and PROCESS_PAYMENT succeed and START_SHIPPING
fails, the compensations run in the order REFUND_PAYMENT then
CANCEL_ORDER after the failed shipping step, the ledger is exactly
[CREATE_ORDER, PROCESS_PAYMENT, START_SHIPPING:FAILED, REFUND_PAYMENT,
CANCEL_ORDER], the terminal status is FAILED and the reason starts with
"Failed to start shipping". -/
theorem executeSaga_shipping_failure (st : OrchState) (req : CreateOrderRequest)
    (env : SagaEnv) (now now' : Nat) (tx : Transaction)
    (hc : req.customerID ≠ "") (ha : 0 < req.amount) (hd : req.address ≠ "")
    (m1 oid : String) (h1 : env.createOrderRes = .reply true m1 oid)
    (m2 i2 : String) (h2 : env.processPaymentRes = .reply true m2 i2)
    (em : String) (h3 : failsWith env.startShippingRes em)
    (h0 : (createOrderSagaHandler st req now).result = .accepted tx) :
    ∃ fin,
      (executeSaga env (createOrderSagaHandler st req now).state tx.id
          now').transactions tx.id = some fin ∧
      fin.status = TransactionStatusFailed ∧
      (∃ rest, fin.failureReason = "Failed to start shipping" ++ rest) ∧
      ∃ s4 s5,
        fin.steps.map (fun s => (s.name, s.status)) =
          [("CREATE_ORDER", TransactionStatusCompleted),
           ("PROCESS_PAYMENT", TransactionStatusCompleted),
           ("START_SHIPPING", TransactionStatusFailed),
           ("REFUND_PAYMENT", s4), ("CANCEL_ORDER", s5)] := by
  have ha' : ¬ req.amount ≤ 0 := not_le.mpr ha
  rw [createOrderSagaHandler] at h0 ⊢
  simp only [if_neg hc, if_neg ha', if_neg hd] at h0 ⊢
  rw [HandlerResult.accepted.injEq] at h0
  subst h0
  obtain ⟨r1, r2, r3, r4, r5, r6⟩ := env
  simp only at h1 h2 h3
  subst h1; subst h2
  rcases h3 with h3 | ⟨rid, h3⟩ <;> subst h3 <;>
    rcases r4 with m4 | ⟨s4, m4, i4⟩ <;> rcases r5 with m5 | ⟨s5, m5, i5⟩ <;>
    simp [executeSaga, createOrder, processPayment, startShipping, refundPayment,
      cancelOrder, addStep, updateStepStatus, updateSteps, setOrderID,
      updateTransactionStatus, setTx, TransactionStatusPending,
      TransactionStatusCompleted, TransactionStatusFailed] <;>
    exact ⟨": " ++ em, prependEq _ _ _ (by decide) em⟩

/-- A participant environment in which shipping fails with an explicit
`success=false` envelope, and both compensating calls also reply
`success=false`. -/
def envShipFail : SagaEnv :=
  { createOrderRes := .reply true "order created" "ORD-1"
    processPaymentRes := .reply true "payment processed" "PAY-1"
    startShippingRes := .reply false "no trucks" ""
    refundPaymentRes := .reply false "refund refused" ""
    cancelOrderRes := .reply false "cannot cancel" ""
    cancelShippingRes := .reply true "cancelled" "SHP-1" }

/-- Witness for `executeSaga_shipping_failure` at the initial state, the
test request and the shipping-failure environment. -/
theorem executeSaga_shipping_failure_witness :
    testReq.customerID ≠ "" ∧ 0 < testReq.amount ∧ testReq.address ≠ "" ∧
    envShipFail.createOrderRes = .reply true "order created" "ORD-1" ∧
    envShipFail.processPaymentRes = .reply true "payment processed" "PAY-1" ∧
    failsWith envShipFail.startShippingRes "no trucks" ∧
    (createOrderSagaHandler initState testReq 0).result = .accepted testTx ∧
    (∃ fin,
      (executeSaga envShipFail (createOrderSagaHandler initState testReq 0).state
          testTx.id 0).transactions testTx.id = some fin ∧
      fin.status = TransactionStatusFailed ∧
      (∃ rest, fin.failureReason = "Failed to start shipping" ++ rest) ∧
      ∃ s4 s5,
        fin.steps.map (fun s => (s.name, s.status)) =
          [("CREATE_ORDER", TransactionStatusCompleted),
           ("PROCESS_PAYMENT", TransactionStatusCompleted),
           ("START_SHIPPING", TransactionStatusFailed),
           ("REFUND_PAYMENT", s4), ("CANCEL_ORDER", s5)]) :=
  ⟨by decide, by decide, by decide, rfl, rfl, Or.inr ⟨"", rfl⟩, by decide,
   executeSaga_shipping_failure initState testReq envShipFail 0 0 testTx
     (by decide) (by decide) (by decide) "order created" "ORD-1" rfl
     "payment processed" "PAY-1" rfl "no trucks" (Or.inr ⟨"", rfl⟩) (by decide)⟩

/-- One primitive mutation of the shared store, as performed inside a
single critical section of the saga task: the four store writes
`executeSaga` and its helpers perform (main.go lines 221-225, 486-551). -/
inductive SagaOp where
  | addStep (stepName : String)
  | endStep (stepName : String) (success : Bool) (errorMsg : String)
  | setOrderID (orderID : String)
  | setStatus (status failureReason : String)
deriving Repr, DecidableEq

/-- Execute one primitive store mutation at clock tick `now`. -/
def applySagaOp (transactionID : String) (op : SagaOp) (now : Nat)
    (st : OrchState) : OrchState :=
  match op with
  | .addStep n => addStep st transactionID n now
  | .endStep n s e => updateStepStatus st transactionID n s e now
  | .setOrderID oid => setOrderID st transactionID oid
  | .setStatus s r => updateTransactionStatus st transactionID s r now

/-- The two ledger writes a forward step performs (begin, then end with
the call's outcome; a `success=false` envelope ends the step FAILED with
the envelope's message). -/
def forwardOps (stepName : String) (res : CallResult) : List SagaOp :=
  match res with
  | .transportErr msg => [.addStep stepName, .endStep stepName false msg]
  | .reply true _ _ => [.addStep stepName, .endStep stepName true ""]
  | .reply false msg _ => [.addStep stepName, .endStep stepName false msg]

/-- The two ledger writes a compensating step performs: the Go
compensations never read the response body, so any delivered reply —
`success=false` included — ends the step COMPLETED; only a transport
error ends it FAILED. -/
def compOps (stepName : String) (res : CallResult) : List SagaOp :=
  match res with
  | .transportErr msg => [.addStep stepName, .endStep stepName false msg]
  | .reply _ _ _ => [.addStep stepName, .endStep stepName true ""]

/-- The full sequence of store mutations one `executeSaga` run performs,
as a function of the participants' answers (main.go lines 212-249). -/
def sagaScript (env : SagaEnv) : List SagaOp :=
  match env.createOrderRes with
  | .transportErr msg =>
      forwardOps "CREATE_ORDER" env.createOrderRes ++
        [.setStatus TransactionStatusFailed ("Failed to create order: " ++ msg)]
  | .reply false msg _ =>
      forwardOps "CREATE_ORDER" env.createOrderRes ++
        [.setStatus TransactionStatusFailed ("Failed to create order: " ++ msg)]
  | .reply true _ orderID =>
      forwardOps "CREATE_ORDER" env.createOrderRes ++ [.setOrderID orderID] ++
      match env.processPaymentRes with
      | .transportErr msg =>
          forwardOps "PROCESS_PAYMENT" env.processPaymentRes ++
          compOps "CANCEL_ORDER" env.cancelOrderRes ++
          [.setStatus TransactionStatusFailed ("Failed to process payment: " ++ msg)]
      | .reply false msg _ =>
          forwardOps "PROCESS_PAYMENT" env.processPaymentRes ++
          compOps "CANCEL_ORDER" env.cancelOrderRes ++
          [.setStatus TransactionStatusFailed ("Failed to process payment: " ++ msg)]
      | .reply true _ _ =>
          forwardOps "PROCESS_PAYMENT" env.processPaymentRes ++
          match env.startShippingRes with
          | .transportErr msg =>
              forwardOps "START_SHIPPING" env.startShippingRes ++
              compOps "REFUND_PAYMENT" env.refundPaymentRes ++
              compOps "CANCEL_ORDER" env.cancelOrderRes ++
              [.setStatus TransactionStatusFailed
                ("Failed to start shipping: " ++ msg)]
          | .reply false msg _ =>
              forwardOps "START_SHIPPING" env.startShippingRes ++
              compOps "REFUND_PAYMENT" env.refundPaymentRes ++
              compOps "CANCEL_ORDER" env.cancelOrderRes ++
              [.setStatus TransactionStatusFailed
                ("Failed to start shipping: " ++ msg)]
          | .reply true _ _ =>
              forwardOps "START_SHIPPING" env.startShippingRes ++
              [.setStatus TransactionStatusCompleted ""]

/-- Run a list of primitive mutations, one clock tick each. -/
def applyOps (transactionID : String) (ops : List SagaOp) (now : Nat)
    (st : OrchState) : OrchState :=
  match ops with
  | [] => st
  | op :: rest =>
      applyOps transactionID rest (now + 1) (applySagaOp transactionID op now st)

/-- `executeSaga` performs exactly the store mutations of its script, in
order, under the tick-per-operation clock. -/
theorem executeSaga_eq_applyOps (env : SagaEnv) (st : OrchState)
    (transactionID : String) (now : Nat) :
    executeSaga env st transactionID now =
      applyOps transactionID (sagaScript env) now st := by
  obtain ⟨r1, r2, r3, r4, r5, r6⟩ := env
  rcases r1 with m1 | ⟨_|_, m1, i1⟩ <;>
  rcases r2 with m2 | ⟨_|_, m2, i2⟩ <;>
  rcases r3 with m3 | ⟨_|_, m3, i3⟩ <;>
  rcases r4 with m4 | ⟨s4, m4, i4⟩ <;>
  rcases r5 with m5 | ⟨s5, m5, i5⟩ <;>
  simp [executeSaga, sagaScript, forwardOps, compOps, applyOps, applySagaOp,
    createOrder, processPayment, startShipping, refundPayment, cancelOrder,
    Nat.add_assoc]

/-- The ledger step name a primitive mutation touches, if any. -/
def opStepName : SagaOp → Option String
  | .addStep n => some n
  | .endStep n _ _ => some n
  | .setOrderID _ => none
  | .setStatus _ _ => none

/-- **C5.** If CREATE_ORDER fails, the transaction ends FAILED with a
reason starting "Failed to create order", the ledger is exactly one
FAILED CREATE_ORDER step, and the saga run performs no ledger operation
for any compensating step (CANCEL_ORDER, REFUND_PAYMENT,
CANCEL_SHIPPING). -/
theorem executeSaga_createOrder_failure (st : OrchState)
    (req : CreateOrderRequest) (env : SagaEnv) (now now' : Nat)
    (tx : Transaction)
    (hc : req.customerID ≠ "") (ha : 0 < req.amount) (hd : req.address ≠ "")
    (em : String) (h1 : failsWith env.createOrderRes em)
    (h0 : (createOrderSagaHandler st req now).result = .accepted tx) :
    (∃ fin,
      (executeSaga env (createOrderSagaHandler st req now).state tx.id
          now').transactions tx.id = some fin ∧
      fin.status = TransactionStatusFailed ∧
      (∃ rest, fin.failureReason = "Failed to create order" ++ rest) ∧
      fin.steps.map (fun s => (s.name, s.status)) =
        [("CREATE_ORDER", TransactionStatusFailed)]) ∧
    ∀ op ∈ sagaScript env, ∀ n, opStepName op = some n →
      n ≠ "CANCEL_ORDER" ∧ n ≠ "REFUND_PAYMENT" ∧ n ≠ "CANCEL_SHIPPING" := by
  have ha' : ¬ req.amount ≤ 0 := not_le.mpr ha
  rw [createOrderSagaHandler] at h0 ⊢
  simp only [if_neg hc, if_neg ha', if_neg hd] at h0 ⊢
  rw [HandlerResult.accepted.injEq] at h0
  subst h0
  obtain ⟨r1, r2, r3, r4, r5, r6⟩ := env
  simp only at h1
  rcases h1 with h1 | ⟨rid, h1⟩ <;> subst h1 <;>
    constructor <;>
    simp [executeSaga, sagaScript, forwardOps, createOrder, addStep,
      updateStepStatus, updateSteps, updateTransactionStatus, setTx,
      opStepName, TransactionStatusPending, TransactionStatusCompleted,
      TransactionStatusFailed] <;>
    exact ⟨": " ++ em, prependEq _ _ _ (by decide) em⟩

/-- A participant environment in which CREATE_ORDER fails at the
transport level. -/
def envOrderFail : SagaEnv :=
  { createOrderRes := .transportErr "connection refused"
    processPaymentRes := .reply true "payment processed" "PAY-1"
    startShippingRes := .reply true "shipping started" "SHP-1"
    refundPaymentRes := .reply true "refunded" "PAY-1"
    cancelOrderRes := .reply true "cancelled" "ORD-1"
    cancelShippingRes := .reply true "cancelled" "SHP-1" }

/-- Witness for `executeSaga_createOrder_failure` at the initial state,
the test request and the order-failure environment. -/
theorem executeSaga_createOrder_failure_witness :
    testReq.customerID ≠ "" ∧ 0 < testReq.amount ∧ testReq.address ≠ "" ∧
    failsWith envOrderFail.createOrderRes "connection refused" ∧
    (createOrderSagaHandler initState testReq 0).result = .accepted testTx ∧
    ((∃ fin,
      (executeSaga envOrderFail (createOrderSagaHandler initState testReq 0).state
          testTx.id 0).transactions testTx.id = some fin ∧
      fin.status = TransactionStatusFailed ∧
      (∃ rest, fin.failureReason = "Failed to create order" ++ rest) ∧
      fin.steps.map (fun s => (s.name, s.status)) =
        [("CREATE_ORDER", TransactionStatusFailed)]) ∧
    ∀ op ∈ sagaScript envOrderFail, ∀ n, opStepName op = some n →
      n ≠ "CANCEL_ORDER" ∧ n ≠ "REFUND_PAYMENT" ∧ n ≠ "CANCEL_SHIPPING") :=
  ⟨by decide, by decide, by decide, Or.inl rfl, by decide,
   executeSaga_createOrder_failure initState testReq envOrderFail 0 0 testTx
     (by decide) (by decide) (by decide) "connection refused" (Or.inl rfl)
     (by decide)⟩

/-- What the Go compensation code records for a compensating step: FAILED
with the transport error text on a transport failure, otherwise COMPLETED
with empty error — the response envelope is never read (main.go lines
416-425, 444-453). -/
def compOutcome : CallResult → String × String
  | .transportErr msg => (TransactionStatusFailed, msg)
  | .reply _ _ _ => (TransactionStatusCompleted, "")

/-- **C3, counterexample.** A run in which both compensating participants
reply `success=false`: the REFUND_PAYMENT and CANCEL_ORDER steps are
nevertheless ledgered COMPLETED with empty error text, and no FAILED
CANCEL_ORDER step exists — contradicting the claim that a `success=false`
compensation reply is recorded as a FAILED step and never as COMPLETED. -/
theorem compensation_failure_ledger_counterexample :
    envShipFail.refundPaymentRes = .reply false "refund refused" "" ∧
    envShipFail.cancelOrderRes = .reply false "cannot cancel" "" ∧
    ((executeSaga envShipFail (createOrderSagaHandler initState testReq 0).state
        "TRX-1" 0).transactions "TRX-1").map
        (fun fin => fin.steps.map fun s => (s.name, s.status, s.error)) =
      some [("CREATE_ORDER", TransactionStatusCompleted, ""),
            ("PROCESS_PAYMENT", TransactionStatusCompleted, ""),
            ("START_SHIPPING", TransactionStatusFailed, "no trucks"),
            ("REFUND_PAYMENT", TransactionStatusCompleted, ""),
            ("CANCEL_ORDER", TransactionStatusCompleted, "")] ∧
    ((executeSaga envShipFail (createOrderSagaHandler initState testReq 0).state
        "TRX-1" 0).transactions "TRX-1").map
        (fun fin => fin.steps.any fun s =>
          (s.name = "CANCEL_ORDER" || s.name = "REFUND_PAYMENT") &&
            s.status = TransactionStatusFailed) ≠ some true := by
  refine ⟨rfl, rfl, by decide, by decide⟩

/-- **C3, amended.** Compensating calls are best-effort and their ledger
outcome is `compOutcome`: FAILED with the error text only on a transport
failure; any delivered reply — `success=false` included — is ledgered
COMPLETED, since the compensation code never reads the response body.
Either way the transaction still ends FAILED with the original
triggering reason. -/
theorem compensation_best_effort (st : OrchState) (req : CreateOrderRequest)
    (env : SagaEnv) (now now' : Nat) (tx : Transaction)
    (hc : req.customerID ≠ "") (ha : 0 < req.amount) (hd : req.address ≠ "")
    (m1 oid : String) (h1 : env.createOrderRes = .reply true m1 oid)
    (h0 : (createOrderSagaHandler st req now).result = .accepted tx) :
    (∀ em, failsWith env.processPaymentRes em →
      ∃ fin,
        (executeSaga env (createOrderSagaHandler st req now).state tx.id
            now').transactions tx.id = some fin ∧
        fin.status = TransactionStatusFailed ∧
        (∃ rest, fin.failureReason = "Failed to process payment" ++ rest) ∧
        fin.steps.map (fun s => (s.name, s.status, s.error)) =
          [("CREATE_ORDER", TransactionStatusCompleted, ""),
           ("PROCESS_PAYMENT", TransactionStatusFailed, em),
           ("CANCEL_ORDER", (compOutcome env.cancelOrderRes).1,
            (compOutcome env.cancelOrderRes).2)]) ∧
    (∀ m2 i2, env.processPaymentRes = .reply true m2 i2 →
     ∀ em, failsWith env.startShippingRes em →
      ∃ fin,
        (executeSaga env (createOrderSagaHandler st req now).state tx.id
            now').transactions tx.id = some fin ∧
        fin.status = TransactionStatusFailed ∧
        (∃ rest, fin.failureReason = "Failed to start shipping" ++ rest) ∧
        fin.steps.map (fun s => (s.name, s.status, s.error)) =
          [("CREATE_ORDER", TransactionStatusCompleted, ""),
           ("PROCESS_PAYMENT", TransactionStatusCompleted, ""),
           ("START_SHIPPING", TransactionStatusFailed, em),
           ("REFUND_PAYMENT", (compOutcome env.refundPaymentRes).1,
            (compOutcome env.refundPaymentRes).2),
           ("CANCEL_ORDER", (compOutcome env.cancelOrderRes).1,
            (compOutcome env.cancelOrderRes).2)]) := by
  have ha' : ¬ req.amount ≤ 0 := not_le.mpr ha
  rw [createOrderSagaHandler] at h0 ⊢
  simp only [if_neg hc, if_neg ha', if_neg hd] at h0 ⊢
  rw [HandlerResult.accepted.injEq] at h0
  subst h0
  obtain ⟨r1, r2, r3, r4, r5, r6⟩ := env
  simp only at h1
  subst h1
  constructor
  · intro em h2
    rcases h2 with h2 | ⟨rid, h2⟩ <;> subst h2 <;>
      rcases r5 with m5 | ⟨s5, m5, i5⟩ <;>
      simp [executeSaga, createOrder, processPayment, cancelOrder, compOutcome,
        addStep, updateStepStatus, updateSteps, setOrderID,
        updateTransactionStatus, setTx, TransactionStatusPending,
        TransactionStatusCompleted, TransactionStatusFailed] <;>
      exact ⟨": " ++ em, prependEq _ _ _ (by decide) em⟩
  · intro m2 i2 h2 em h3
    simp only at h2
    subst h2
    rcases h3 with h3 | ⟨rid, h3⟩ <;> subst h3 <;>
      rcases r4 with m4 | ⟨s4, m4, i4⟩ <;> rcases r5 with m5 | ⟨s5, m5, i5⟩ <;>
      simp [executeSaga, createOrder, processPayment, startShipping,
        refundPayment, cancelOrder, compOutcome, addStep, updateStepStatus,
        updateSteps, setOrderID, updateTransactionStatus, setTx,
        TransactionStatusPending, TransactionStatusCompleted,
        TransactionStatusFailed] <;>
      exact ⟨": " ++ em, prependEq _ _ _ (by decide) em⟩

/-- Witness for `compensation_best_effort`: shipping fails and both
compensating participants answer `success=false`. -/
theorem compensation_best_effort_witness :
    testReq.customerID ≠ "" ∧ 0 < testReq.amount ∧ testReq.address ≠ "" ∧
    envShipFail.createOrderRes = .reply true "order created" "ORD-1" ∧
    (createOrderSagaHandler initState testReq 0).result = .accepted testTx ∧
    envShipFail.processPaymentRes = .reply true "payment processed" "PAY-1" ∧
    failsWith envShipFail.startShippingRes "no trucks" ∧
    (∃ fin,
      (executeSaga envShipFail (createOrderSagaHandler initState testReq 0).state
          testTx.id 0).transactions testTx.id = some fin ∧
      fin.status = TransactionStatusFailed ∧
      (∃ rest, fin.failureReason = "Failed to start shipping" ++ rest) ∧
      fin.steps.map (fun s => (s.name, s.status, s.error)) =
        [("CREATE_ORDER", TransactionStatusCompleted, ""),
         ("PROCESS_PAYMENT", TransactionStatusCompleted, ""),
         ("START_SHIPPING", TransactionStatusFailed, "no trucks"),
         ("REFUND_PAYMENT", (compOutcome envShipFail.refundPaymentRes).1,
          (compOutcome envShipFail.refundPaymentRes).2),
         ("CANCEL_ORDER", (compOutcome envShipFail.cancelOrderRes).1,
          (compOutcome envShipFail.cancelOrderRes).2)]) :=
  ⟨by decide, by decide, by decide, rfl, by decide, rfl, Or.inr ⟨"", rfl⟩,
   (compensation_best_effort initState testReq envShipFail 0 0 testTx
      (by decide) (by decide) (by decide) "order created" "ORD-1" rfl
      (by decide)).2 "payment processed" "PAY-1" rfl "no trucks"
      (Or.inr ⟨"", rfl⟩)⟩

/-- The record the Go loop writes into a matched step: status from the
outcome, end timestamp now, error text on failure (main.go lines
517-523). -/
def endStepUpdate (s : Step) (success : Bool) (errorMsg : String) (now : Nat) :
    Step :=
  if success then
    { s with status := TransactionStatusCompleted, endedAt := some now }
  else
    { s with status := TransactionStatusFailed, error := errorMsg
             endedAt := some now }

theorem updateSteps_no_match (steps : List Step) (name : String) (succ : Bool)
    (err : String) (now : Nat) (h : ∀ s ∈ steps, s.name ≠ name) :
    updateSteps steps name succ err now = steps := by
  induction steps with
  | nil => rfl
  | cons s rest ih =>
      rw [updateSteps]
      rw [if_neg (h s (List.mem_cons_self s rest))]
      rw [ih (fun s' hs' => h s' (List.mem_cons_of_mem s hs'))]

theorem updateSteps_first (steps : List Step) (name : String) (succ : Bool)
    (err : String) (now : Nat) :
    ∀ i, (hi : i < steps.length) → (steps.get ⟨i, hi⟩).name = name →
    (∀ j, (hj : j < i) → (steps.get ⟨j, hj.trans hi⟩).name ≠ name) →
    updateSteps steps name succ err now =
      steps.set i (endStepUpdate (steps.get ⟨i, hi⟩) succ err now) := by
  induction steps with
  | nil => intro i hi; exact absurd hi (by simp)
  | cons s rest ih =>
      intro i hi hname hbefore
      match i with
      | 0 =>
          have hs : s.name = name := by simpa using hname
          rw [updateSteps, if_pos hs]
          cases succ <;> simp [endStepUpdate]
      | k + 1 =>
          have hhead : s.name ≠ name := hbefore 0 (Nat.succ_pos k)
          rw [updateSteps, if_neg hhead]
          have hk : k < rest.length := by
            simpa [Nat.succ_lt_succ_iff] using hi
          rw [ih k hk (by simpa using hname)
            (fun j hj => by simpa using hbefore (j + 1) (Nat.succ_lt_succ hj))]
          simp [List.set]

/-- **C4, amended.** `updateStepStatus` closes the *first* step whose name
matches, regardless of whether that step already carries an end
timestamp: other transactions are untouched; a missing transaction id is
a no-op; a transaction with no step of that name is left unchanged; and
when a match exists at the smallest index `i`, exactly that step is
replaced by `endStepUpdate` of it. -/
theorem updateStepStatus_first_match (st : OrchState) (id name : String)
    (succ : Bool) (err : String) (now : Nat) :
    (∀ id', id' ≠ id →
      (updateStepStatus st id name succ err now).transactions id' =
        st.transactions id') ∧
    (st.transactions id = none →
      updateStepStatus st id name succ err now = st) ∧
    (∀ tx, st.transactions id = some tx →
      ((∀ s ∈ tx.steps, s.name ≠ name) →
        (updateStepStatus st id name succ err now).transactions id = some tx) ∧
      (∀ i, (hi : i < tx.steps.length) →
        (tx.steps.get ⟨i, hi⟩).name = name →
        (∀ j, (hj : j < i) → (tx.steps.get ⟨j, hj.trans hi⟩).name ≠ name) →
        (updateStepStatus st id name succ err now).transactions id =
          some { tx with
                 steps := tx.steps.set i
                   (endStepUpdate (tx.steps.get ⟨i, hi⟩) succ err now) })) := by
  refine ⟨?_, ?_, ?_⟩
  · intro id' hne
    rw [updateStepStatus]
    cases h : st.transactions id with
    | none => rfl
    | some tx => simp [setTx, hne]
  · intro h
    rw [updateStepStatus, h]
  · intro tx htx
    constructor
    · intro hnone
      rw [updateStepStatus, htx]
      simp [setTx, updateSteps_no_match tx.steps name succ err now hnone]
    · intro i hi hname hbefore
      rw [updateStepStatus, htx]
      simp [setTx, updateSteps_first tx.steps name succ err now i hi hname hbefore]

/-- A transaction whose only step named "A" already carries an end
timestamp (it is closed). -/
def closedStepTx : Transaction :=
  { id := "T", orderID := "", customerID := "c", amount := 1, address := "a"
    status := TransactionStatusFailed, createdAt := 0, completedAt := some 2
    failureReason := "boom"
    steps := [{ name := "A", status := TransactionStatusCompleted
                startedAt := 0, endedAt := some 1, error := "" }] }

/-- A store holding only `closedStepTx`. -/
def closedStepState : OrchState :=
  { transactions := setTx (fun _ => none) "T" closedStepTx, nextID := 2 }

/-- **C4, counterexample.** `closedStepTx` has no step named "A" lacking
an end timestamp, so per the claim `updateStepStatus` should leave the
transaction unchanged — but the Go loop ignores `EndedAt` and rewrites
the already-closed step. -/
theorem updateStepStatus_closed_step_counterexample :
    (∀ s ∈ closedStepTx.steps, ¬ (s.name = "A" ∧ s.endedAt = none)) ∧
    (updateStepStatus closedStepState "T" "A" false "late error" 5).transactions "T" ≠
      closedStepState.transactions "T" := by
  exact ⟨by decide, by decide⟩

/-- A transaction with two steps named "A", both lacking an end
timestamp: the claim's "most recent open step" is the second one. -/
def twoOpenTx : Transaction :=
  { id := "U", orderID := "", customerID := "c", amount := 1, address := "a"
    status := TransactionStatusPending, createdAt := 0, completedAt := none
    failureReason := ""
    steps := [{ name := "A", status := TransactionStatusPending
                startedAt := 0, endedAt := none, error := "" },
              { name := "A", status := TransactionStatusPending
                startedAt := 1, endedAt := none, error := "" }] }

/-- A store holding only `twoOpenTx`. -/
def twoOpenState : OrchState :=
  { transactions := setTx (fun _ => none) "U" twoOpenTx, nextID := 2 }

/-- Witness for `updateStepStatus_first_match`: with two open steps named
"A", the step at index 0 — the first, not the most recent — is the one
closed. -/
theorem updateStepStatus_first_match_witness :
    twoOpenState.transactions "U" = some twoOpenTx ∧
    (updateStepStatus twoOpenState "U" "A" true "" 9).transactions "U" =
      some { twoOpenTx with
             steps := [{ name := "A", status := TransactionStatusCompleted
                         startedAt := 0, endedAt := some 9, error := "" },
                       { name := "A", status := TransactionStatusPending
                         startedAt := 1, endedAt := none, error := "" }] } := by
  refine ⟨by decide, ?_⟩
  have h := ((updateStepStatus_first_match twoOpenState "U" "A" true "" 9).2.2
    twoOpenTx (by decide)).2 0 (by decide) (by decide)
    (fun j hj => absurd hj (Nat.not_lt_zero j))
  exact h.trans (by decide)

/-- **C7.** An invalid start-saga request (empty customer id, amount ≤ 0,
or empty address) is rejected with a bad-request response: the
orchestrator state — transaction store and id counter — is unchanged and
no saga task is spawned. -/
theorem createOrderSagaHandler_invalid (st : OrchState)
    (req : CreateOrderRequest) (now : Nat)
    (h : req.customerID = "" ∨ req.amount ≤ 0 ∨ req.address = "") :
    (createOrderSagaHandler st req now).state = st ∧
    (∃ m, (createOrderSagaHandler st req now).result = .badRequest m) ∧
    (createOrderSagaHandler st req now).sagaTask = none := by
  rcases h with h | h | h
  · simp [createOrderSagaHandler, h]
  · by_cases hc : req.customerID = "" <;>
      simp [createOrderSagaHandler, hc, h]
  · by_cases hc : req.customerID = "" <;> by_cases ha : req.amount ≤ 0 <;>
      simp [createOrderSagaHandler, hc, ha, h]

/-- A start-saga request with an empty customer id. -/
def badReq : CreateOrderRequest :=
  { customerID := "", items := [], amount := 100, address := "addr" }

/-- Witness for `createOrderSagaHandler_invalid` at `badReq`. -/
theorem createOrderSagaHandler_invalid_witness :
    (badReq.customerID = "" ∨ badReq.amount ≤ 0 ∨ badReq.address = "") ∧
    ((createOrderSagaHandler initState badReq 7).state = initState ∧
     (∃ m, (createOrderSagaHandler initState badReq 7).result = .badRequest m) ∧
     (createOrderSagaHandler initState badReq 7).sagaTask = none) :=
  ⟨Or.inl rfl, createOrderSagaHandler_invalid initState badReq 7 (Or.inl rfl)⟩

/-- **C9.** For an existing transaction id, `updateTransactionStatus`
changes only the `status`, `completedAt` and `failureReason` fields of
that transaction; all its other fields, every other transaction, and the
id counter are unchanged, and the failure reason is written only when
the new status is FAILED. -/
theorem updateTransactionStatus_frame (st : OrchState) (id status reason : String)
    (now : Nat) (tx : Transaction) (h : st.transactions id = some tx) :
    (∃ tx',
      (updateTransactionStatus st id status reason now).transactions id = some tx' ∧
      tx'.id = tx.id ∧ tx'.orderID = tx.orderID ∧
      tx'.customerID = tx.customerID ∧ tx'.amount = tx.amount ∧
      tx'.address = tx.address ∧ tx'.createdAt = tx.createdAt ∧
      tx'.steps = tx.steps ∧ tx'.status = status ∧
      (status = TransactionStatusFailed → tx'.failureReason = reason) ∧
      (status ≠ TransactionStatusFailed → tx'.failureReason = tx.failureReason) ∧
      (status = TransactionStatusCompleted ∨ status = TransactionStatusFailed →
        tx'.completedAt = some now) ∧
      (status ≠ TransactionStatusCompleted ∧ status ≠ TransactionStatusFailed →
        tx'.completedAt = tx.completedAt)) ∧
    (∀ id', id' ≠ id →
      (updateTransactionStatus st id status reason now).transactions id' =
        st.transactions id') ∧
    (updateTransactionStatus st id status reason now).nextID = st.nextID := by
  by_cases hC : status = TransactionStatusCompleted
  · subst hC
    have hlook : (updateTransactionStatus st id TransactionStatusCompleted reason
        now).transactions id =
        some { tx with status := TransactionStatusCompleted, completedAt := some now } := by
      rw [updateTransactionStatus, h]
      simp [setTx]
    refine ⟨⟨_, hlook, rfl, rfl, rfl, rfl, rfl, rfl, rfl, rfl,
      fun hF => absurd hF (by decide), fun _ => rfl, fun _ => rfl,
      fun hx => absurd rfl hx.1⟩, fun id' hne => ?_, ?_⟩
    · rw [updateTransactionStatus, h]; simp [setTx, hne]
    · rw [updateTransactionStatus, h]
  · by_cases hF : status = TransactionStatusFailed
    · subst hF
      have hlook : (updateTransactionStatus st id TransactionStatusFailed reason
          now).transactions id =
          some { tx with status := TransactionStatusFailed, failureReason := reason, completedAt := some now } := by
        rw [updateTransactionStatus, h]
        simp [setTx, TransactionStatusFailed, TransactionStatusCompleted]
      refine ⟨⟨_, hlook, rfl, rfl, rfl, rfl, rfl, rfl, rfl, rfl,
        fun _ => rfl, fun hne => absurd rfl hne, fun _ => rfl,
        fun hx => absurd rfl hx.2⟩, fun id' hne => ?_, ?_⟩
      · rw [updateTransactionStatus, h]; simp [setTx, hne]
      · rw [updateTransactionStatus, h]
    · have hlook : (updateTransactionStatus st id status reason
          now).transactions id = some { tx with status := status } := by
        rw [updateTransactionStatus, h]
        simp [setTx, hC, hF]
      refine ⟨⟨_, hlook, rfl, rfl, rfl, rfl, rfl, rfl, rfl, rfl,
        fun hf => absurd hf hF, fun _ => rfl,
        fun hx => absurd hx (by rintro (hc | hf); exacts [hC hc, hF hf]),
        fun _ => rfl⟩, fun id' hne => ?_, ?_⟩
      · rw [updateTransactionStatus, h]; simp [setTx, hne]
      · rw [updateTransactionStatus, h]

/-- Witness for `updateTransactionStatus_frame`: mark `closedStepTx`
COMPLETED inside `closedStepState`. -/
theorem updateTransactionStatus_frame_witness :
    closedStepState.transactions "T" = some closedStepTx ∧
    (∃ tx',
      (updateTransactionStatus closedStepState "T" TransactionStatusCompleted
          "r" 9).transactions "T" = some tx' ∧
      tx'.id = closedStepTx.id ∧ tx'.orderID = closedStepTx.orderID ∧
      tx'.customerID = closedStepTx.customerID ∧
      tx'.amount = closedStepTx.amount ∧ tx'.address = closedStepTx.address ∧
      tx'.createdAt = closedStepTx.createdAt ∧ tx'.steps = closedStepTx.steps ∧
      tx'.status = TransactionStatusCompleted ∧
      (TransactionStatusCompleted = TransactionStatusFailed →
        tx'.failureReason = "r") ∧
      (TransactionStatusCompleted ≠ TransactionStatusFailed →
        tx'.failureReason = closedStepTx.failureReason) ∧
      (TransactionStatusCompleted = TransactionStatusCompleted ∨
          TransactionStatusCompleted = TransactionStatusFailed →
        tx'.completedAt = some 9) ∧
      (TransactionStatusCompleted ≠ TransactionStatusCompleted ∧
          TransactionStatusCompleted ≠ TransactionStatusFailed →
        tx'.completedAt = closedStepTx.completedAt)) :=
  ⟨by decide,
   (updateTransactionStatus_frame closedStepState "T" TransactionStatusCompleted
      "r" 9 closedStepTx (by decide)).1⟩

/-- **C10.** The transaction snapshot a successful start-saga request
returns is the copy made before the saga task starts: PENDING status,
empty step list, empty order id, empty failure reason, unset completion
timestamp — and it is exactly what the store holds at that moment. -/
theorem handler_snapshot (st : OrchState) (req : CreateOrderRequest)
    (now : Nat) (tx : Transaction)
    (h0 : (createOrderSagaHandler st req now).result = .accepted tx) :
    tx.steps = [] ∧ tx.orderID = "" ∧ tx.failureReason = "" ∧
    tx.completedAt = none ∧ tx.status = TransactionStatusPending ∧
    (createOrderSagaHandler st req now).state.transactions tx.id = some tx ∧
    (createOrderSagaHandler st req now).sagaTask = some (tx.id, req) := by
  rw [createOrderSagaHandler] at h0 ⊢
  by_cases hc : req.customerID = ""
  · rw [if_pos hc] at h0; exact absurd h0 (by simp)
  · rw [if_neg hc] at h0 ⊢
    by_cases ha : req.amount ≤ 0
    · rw [if_pos ha] at h0; exact absurd h0 (by simp)
    · rw [if_neg ha] at h0 ⊢
      by_cases hd : req.address = ""
      · rw [if_pos hd] at h0; exact absurd h0 (by simp)
      · rw [if_neg hd] at h0 ⊢
        rw [HandlerResult.accepted.injEq] at h0
        subst h0
        simp [setTx]

/-- Witness for `handler_snapshot` at the initial state and test
request. -/
theorem handler_snapshot_witness :
    (createOrderSagaHandler initState testReq 0).result = .accepted testTx ∧
    (testTx.steps = [] ∧ testTx.orderID = "" ∧ testTx.failureReason = "" ∧
     testTx.completedAt = none ∧ testTx.status = TransactionStatusPending ∧
     (createOrderSagaHandler initState testReq 0).state.transactions testTx.id =
       some testTx ∧
     (createOrderSagaHandler initState testReq 0).sagaTask =
       some (testTx.id, testReq)) :=
  ⟨by decide, handler_snapshot initState testReq 0 testTx (by decide)⟩

/-- Is this primitive mutation the terminal `updateTransactionStatus`
write? -/
def isSetStatus : SagaOp → Bool
  | .setStatus _ _ => true
  | _ => false

/-- A `setStatus` op only ever carries a terminal status. -/
def goodOp : SagaOp → Prop
  | .setStatus s _ =>
      s = TransactionStatusCompleted ∨ s = TransactionStatusFailed
  | _ => True

/-- Shape of every saga script suffix: a `setStatus` op can only occur as
the very last element, and then only with a terminal status. -/
def scriptShape : List SagaOp → Prop
  | [] => True
  | [op] => goodOp op
  | op :: op2 :: rest => isSetStatus op = false ∧ scriptShape (op2 :: rest)

theorem scriptShape_tail {a : SagaOp} {l : List SagaOp}
    (h : scriptShape (a :: l)) : scriptShape l := by
  cases l with
  | nil => trivial
  | cons b t => exact h.2

theorem scriptShape_head_not_status {op : SagaOp} {rest : List SagaOp}
    (h : scriptShape (op :: rest)) (hne : rest ≠ []) :
    isSetStatus op = false := by
  cases rest with
  | nil => exact absurd rfl hne
  | cons b t => exact h.1

theorem scriptShape_status_last {op : SagaOp} {rest : List SagaOp}
    (h : scriptShape (op :: rest)) (hop : isSetStatus op = true) :
    rest = [] := by
  cases rest with
  | nil => rfl
  | cons b t => rw [h.1] at hop; exact absurd hop (by simp)

theorem scriptShape_head_good {op : SagaOp} {rest : List SagaOp}
    (h : scriptShape (op :: rest)) : goodOp op := by
  cases rest with
  | nil => exact h
  | cons b t =>
      have h1 := h.1
      cases op with
      | setStatus s r => simp [isSetStatus] at h1
      | addStep n => trivial
      | endStep n s e => trivial
      | setOrderID o => trivial

theorem scriptShape_suffix {l rem : List SagaOp} (hs : rem <:+ l)
    (h : scriptShape l) : scriptShape rem := by
  induction l with
  | nil => rw [List.suffix_nil.mp hs]; trivial
  | cons a l ih =>
      rcases List.suffix_cons_iff.mp hs with h1 | h1
      · rwa [h1]
      · exact ih h1 (scriptShape_tail h)

theorem scriptShape_append (l l' : List SagaOp) (hne : l' ≠ [])
    (h : ∀ op ∈ l, isSetStatus op = false) (h' : scriptShape l') :
    scriptShape (l ++ l') := by
  induction l with
  | nil => simpa using h'
  | cons a l ih =>
      have hal : scriptShape (l ++ l') :=
        ih (fun op hop => h op (List.mem_cons_of_mem _ hop))
      have hll : l ++ l' ≠ [] := by
        cases l with
        | nil => simpa using hne
        | cons b t => simp
      rw [List.cons_append]
      cases hc : l ++ l' with
      | nil => exact absurd hc hll
      | cons b t =>
          rw [hc] at hal
          exact ⟨h a (List.mem_cons_self a l), hal⟩

theorem forwardOps_no_status (name : String) (r : CallResult) :
    ∀ op ∈ forwardOps name r, isSetStatus op = false := by
  rcases r with m | ⟨_|_, m, i⟩ <;> simp [forwardOps, isSetStatus]

theorem compOps_no_status (name : String) (r : CallResult) :
    ∀ op ∈ compOps name r, isSetStatus op = false := by
  rcases r with m | ⟨s, m, i⟩ <;> simp [compOps, isSetStatus]

/-- Every saga script has the required shape: one terminal `setStatus`,
at the end. -/
theorem scriptShape_sagaScript (env : SagaEnv) : scriptShape (sagaScript env) := by
  obtain ⟨r1, r2, r3, r4, r5, r6⟩ := env
  rcases r1 with m1 | ⟨_|_, m1, i1⟩ <;>
  rcases r2 with m2 | ⟨_|_, m2, i2⟩ <;>
  rcases r3 with m3 | ⟨_|_, m3, i3⟩ <;>
  rcases r4 with m4 | ⟨s4, m4, i4⟩ <;>
  rcases r5 with m5 | ⟨s5, m5, i5⟩ <;>
  simp [sagaScript, forwardOps, compOps, scriptShape, isSetStatus, goodOp,
    TransactionStatusCompleted, TransactionStatusFailed]

theorem applySagaOp_lookup_ne (id id' : String) (op : SagaOp) (now : Nat)
    (st : OrchState) (h : id' ≠ id) :
    (applySagaOp id op now st).transactions id' = st.transactions id' := by
  cases op with
  | addStep n =>
      show (addStep st id n now).transactions id' = _
      rw [addStep]
      cases hst : st.transactions id with
      | none => rfl
      | some tx => simp [setTx, h]
  | endStep n s e =>
      show (updateStepStatus st id n s e now).transactions id' = _
      rw [updateStepStatus]
      cases hst : st.transactions id with
      | none => rfl
      | some tx => simp [setTx, h]
  | setOrderID oid =>
      show (setOrderID st id oid).transactions id' = _
      rw [setOrderID]
      simp [setTx, h]
  | setStatus s r =>
      show (updateTransactionStatus st id s r now).transactions id' = _
      rw [updateTransactionStatus]
      cases hst : st.transactions id with
      | none => rfl
      | some tx => simp [setTx, h]

theorem applySagaOp_nextID (id : String) (op : SagaOp) (now : Nat)
    (st : OrchState) : (applySagaOp id op now st).nextID = st.nextID := by
  cases op with
  | addStep n =>
      show (addStep st id n now).nextID = _
      rw [addStep]
      cases hst : st.transactions id <;> rfl
  | endStep n s e =>
      show (updateStepStatus st id n s e now).nextID = _
      rw [updateStepStatus]
      cases hst : st.transactions id <;> rfl
  | setOrderID oid => rfl
  | setStatus s r =>
      show (updateTransactionStatus st id s r now).nextID = _
      rw [updateTransactionStatus]
      cases hst : st.transactions id <;> rfl

/-- A primitive mutation other than `setStatus` keeps the transaction
present and preserves its status and completion timestamp. -/
theorem applySagaOp_preserves_status (id : String) (op : SagaOp) (now : Nat)
    (st : OrchState) (tx : Transaction) (htx : st.transactions id = some tx)
    (hop : isSetStatus op = false) :
    ∃ tx', (applySagaOp id op now st).transactions id = some tx' ∧
      tx'.status = tx.status ∧ tx'.completedAt = tx.completedAt := by
  cases op with
  | addStep n =>
      refine ⟨{ tx with steps := tx.steps ++ [{ name := n, status := TransactionStatusPending, startedAt := now, endedAt := none, error := "" }] }, ?_, rfl, rfl⟩
      show (addStep st id n now).transactions id = _
      rw [addStep, htx]
      simp [setTx]
  | endStep n s e =>
      refine ⟨{ tx with steps := updateSteps tx.steps n s e now }, ?_, rfl, rfl⟩
      show (updateStepStatus st id n s e now).transactions id = _
      rw [updateStepStatus, htx]
      simp [setTx]
  | setOrderID oid =>
      refine ⟨{ tx with orderID := oid }, ?_, rfl, rfl⟩
      show (setOrderID st id oid).transactions id = _
      rw [setOrderID, htx]
      simp [setTx]
  | setStatus s r => simp [isSetStatus] at hop

/-- Any primitive mutation keeps an existing transaction present. -/
theorem applySagaOp_isSome (id : String) (op : SagaOp) (now : Nat)
    (st : OrchState) (tx : Transaction) (htx : st.transactions id = some tx) :
    ∃ tx', (applySagaOp id op now st).transactions id = some tx' := by
  cases op with
  | addStep n =>
      refine ⟨{ tx with steps := tx.steps ++ [{ name := n, status := TransactionStatusPending, startedAt := now, endedAt := none, error := "" }] }, ?_⟩
      show (addStep st id n now).transactions id = _
      rw [addStep, htx]; simp [setTx]
  | endStep n s e =>
      refine ⟨{ tx with steps := updateSteps tx.steps n s e now }, ?_⟩
      show (updateStepStatus st id n s e now).transactions id = _
      rw [updateStepStatus, htx]; simp [setTx]
  | setOrderID oid =>
      refine ⟨{ tx with orderID := oid }, ?_⟩
      show (setOrderID st id oid).transactions id = _
      rw [setOrderID, htx]; simp [setTx]
  | setStatus s r =>
      by_cases hC : s = TransactionStatusCompleted
      · subst hC
        refine ⟨{ tx with status := TransactionStatusCompleted, completedAt := some now }, ?_⟩
        show (updateTransactionStatus st id _ r now).transactions id = _
        rw [updateTransactionStatus, htx]
        simp [setTx]
      · by_cases hF : s = TransactionStatusFailed
        · subst hF
          refine ⟨{ tx with status := TransactionStatusFailed, failureReason := r, completedAt := some now }, ?_⟩
          show (updateTransactionStatus st id _ r now).transactions id = _
          rw [updateTransactionStatus, htx]
          simp [setTx, TransactionStatusCompleted, TransactionStatusFailed]
        · refine ⟨{ tx with status := s }, ?_⟩
          show (updateTransactionStatus st id s r now).transactions id = _
          rw [updateTransactionStatus, htx]
          simp [setTx, hC, hF]

/-- The terminal `setStatus` mutation with a terminal status stamps the
status and the completion timestamp. -/
theorem applySagaOp_setStatus_terminal (id s r : String) (now : Nat)
    (st : OrchState) (tx : Transaction) (htx : st.transactions id = some tx)
    (hterm : s = TransactionStatusCompleted ∨ s = TransactionStatusFailed) :
    ∃ tx', (applySagaOp id (.setStatus s r) now st).transactions id = some tx' ∧
      tx'.status = s ∧ tx'.completedAt = some now := by
  rcases hterm with h | h
  · subst h
    refine ⟨{ tx with status := TransactionStatusCompleted, completedAt := some now }, ?_, rfl, rfl⟩
    show (updateTransactionStatus st id _ r now).transactions id = _
    rw [updateTransactionStatus, htx]
    simp [setTx]
  · subst h
    refine ⟨{ tx with status := TransactionStatusFailed, failureReason := r, completedAt := some now }, ?_, rfl, rfl⟩
    show (updateTransactionStatus st id _ r now).transactions id = _
    rw [updateTransactionStatus, htx]
    simp [setTx, TransactionStatusCompleted, TransactionStatusFailed]

/-- The transaction `createOrderSagaHandler` builds for a valid request
(main.go lines 150-158). -/
def handlerTx (st : OrchState) (req : CreateOrderRequest) (now : Nat) :
    Transaction :=
  { id := trxID st.nextID, orderID := "", customerID := req.customerID
    amount := req.amount, address := req.address
    status := TransactionStatusPending, createdAt := now
    completedAt := none, failureReason := "", steps := [] }

/-- On a valid request the handler stores `handlerTx` under the fresh id,
bumps the counter, answers 202 with the snapshot and spawns the saga. -/
theorem handler_valid (st : OrchState) (req : CreateOrderRequest) (now : Nat)
    (h : validReq req) :
    createOrderSagaHandler st req now =
      { state := { transactions := setTx st.transactions (trxID st.nextID) (handlerTx st req now), nextID := st.nextID + 1 }
        result := .accepted (handlerTx st req now)
        sagaTask := some (trxID st.nextID, req) } := by
  obtain ⟨hc, ha, hd⟩ := h
  rw [createOrderSagaHandler, if_neg hc, if_neg (not_le.mpr ha), if_neg hd]
  rfl

/-- The whole system's state: the orchestrator's shared store plus, for
each saga task in flight, the store mutations it has yet to perform. -/
structure SysState where
  orch : OrchState
  pending : List (String × List SagaOp)

/-- The system's initial state: empty store, no saga running. -/
def initSys : SysState := { orch := initState, pending := [] }

/-- One observable transition of the system: either a valid start-saga
request is accepted (the handler's critical section runs and a saga task
with its script is spawned), or some in-flight saga task performs its
next store mutation under the lock. Saga tasks interleave arbitrarily;
status queries are reads and do not change state. -/
inductive SysStep : SysState → SysState → Prop where
  | startSaga (s : SysState) (req : CreateOrderRequest) (env : SagaEnv)
      (now : Nat) (hval : validReq req) :
      SysStep s { orch := (createOrderSagaHandler s.orch req now).state
                  pending := (trxID s.orch.nextID, sagaScript env) :: s.pending }
  | sagaStep (s : SysState) (id : String) (op : SagaOp) (rest : List SagaOp)
      (now : Nat) (pre post : List (String × List SagaOp))
      (h : s.pending = pre ++ (id, op :: rest) :: post) :
      SysStep s { orch := applySagaOp id op now s.orch
                  pending := pre ++ (id, rest) :: post }

/-- A system state the orchestrator can actually reach from startup. -/
def Reachable (s : SysState) : Prop :=
  Relation.ReflTransGen SysStep initSys s

/-- The system invariant: stored ids are `TRX-<k>` with `k` below the
counter; every stored status is PENDING, COMPLETED or FAILED;
`completedAt` is unset exactly on PENDING; every in-flight script
suffix is well-shaped; a saga with work left to do owns a PENDING
transaction; and two sagas with work left never target the same id. -/
structure SysInv (s : SysState) : Prop where
  ids : ∀ id tx, s.orch.transactions id = some tx →
    ∃ k, k < s.orch.nextID ∧ id = trxID k
  status_valid : ∀ id tx, s.orch.transactions id = some tx →
    tx.status = TransactionStatusPending ∨
      tx.status = TransactionStatusCompleted ∨
      tx.status = TransactionStatusFailed
  completed_iff : ∀ id tx, s.orch.transactions id = some tx →
    (tx.completedAt = none ↔ tx.status = TransactionStatusPending)
  pending_shape : ∀ p ∈ s.pending, scriptShape p.2
  pending_open : ∀ p ∈ s.pending, p.2 ≠ [] →
    ∃ tx, s.orch.transactions p.1 = some tx ∧
      tx.status = TransactionStatusPending
  pending_nodup :
    s.pending.Pairwise (fun a b => a.2 ≠ [] → b.2 ≠ [] → a.1 ≠ b.1)

theorem sysInv_init : SysInv initSys := by
  refine ⟨?_, ?_, ?_, ?_, ?_, ?_⟩
  · intro id tx h; exact absurd h (by simp [initSys, initState])
  · intro id tx h; exact absurd h (by simp [initSys, initState])
  · intro id tx h; exact absurd h (by simp [initSys, initState])
  · intro p hp; exact absurd hp (by simp [initSys])
  · intro p hp; exact absurd hp (by simp [initSys])
  · exact List.Pairwise.nil

theorem pairwise_replace {α : Type} {R : α → α → Prop}
    {pre post : List α} {x x' : α}
    (h : List.Pairwise R (pre ++ x :: post))
    (h1 : ∀ c, R x c → R x' c) (h2 : ∀ c, R c x → R c x') :
    List.Pairwise R (pre ++ x' :: post) := by
  rw [List.pairwise_append] at h ⊢
  obtain ⟨hpre, hmid, hcross⟩ := h
  rw [List.pairwise_cons] at hmid ⊢
  refine ⟨hpre, ⟨fun b hb => h1 b (hmid.1 b hb), hmid.2⟩, ?_⟩
  intro a ha b hb
  rcases List.mem_cons.mp hb with rfl | hb
  · exact h2 a (hcross a ha x (List.mem_cons_self x post))
  · exact hcross a ha b (List.mem_cons.mpr (Or.inr hb))

theorem sysInv_step {s s' : SysState} (hinv : SysInv s) (hstep : SysStep s s') :
    SysInv s' := by
  cases hstep with
  | startSaga req env now hval =>
      have hst : ∀ x, (createOrderSagaHandler s.orch req now).state.transactions x =
          setTx s.orch.transactions (trxID s.orch.nextID) (handlerTx s.orch req now) x := by
        intro x; rw [handler_valid s.orch req now hval]
      have hnid : (createOrderSagaHandler s.orch req now).state.nextID =
          s.orch.nextID + 1 := by
        rw [handler_valid s.orch req now hval]
      refine ⟨?_, ?_, ?_, ?_, ?_, ?_⟩
      · intro id2 tx2 h2
        replace h2 := (hst id2).symm.trans h2
        rw [hnid]
        by_cases hid : id2 = trxID s.orch.nextID
        · exact ⟨s.orch.nextID, Nat.lt_succ_self _, hid⟩
        · rw [setTx_lookup_ne _ _ _ _ hid] at h2
          obtain ⟨k, hk, hik⟩ := hinv.ids id2 tx2 h2
          exact ⟨k, Nat.lt_succ_of_lt hk, hik⟩
      · intro id2 tx2 h2
        replace h2 := (hst id2).symm.trans h2
        by_cases hid : id2 = trxID s.orch.nextID
        · rw [hid, setTx_lookup_same] at h2
          injection h2 with h2
          subst h2
          exact Or.inl rfl
        · rw [setTx_lookup_ne _ _ _ _ hid] at h2
          exact hinv.status_valid id2 tx2 h2
      · intro id2 tx2 h2
        replace h2 := (hst id2).symm.trans h2
        by_cases hid : id2 = trxID s.orch.nextID
        · rw [hid, setTx_lookup_same] at h2
          injection h2 with h2
          subst h2
          simp [handlerTx]
        · rw [setTx_lookup_ne _ _ _ _ hid] at h2
          exact hinv.completed_iff id2 tx2 h2
      · intro p hp
        rcases List.mem_cons.mp hp with hp | hp
        · rw [hp]; exact scriptShape_sagaScript env
        · exact hinv.pending_shape p hp
      · intro p hp hpne
        rcases List.mem_cons.mp hp with hp | hp
        · refine ⟨handlerTx s.orch req now, ?_, rfl⟩
          rw [hp, hst, setTx_lookup_same]
        · obtain ⟨tx0, htx0, htx0P⟩ := hinv.pending_open p hp hpne
          by_cases hid : p.1 = trxID s.orch.nextID
          · refine ⟨handlerTx s.orch req now, ?_, rfl⟩
            rw [hst, hid, setTx_lookup_same]
          · refine ⟨tx0, ?_, htx0P⟩
            rw [hst, setTx_lookup_ne _ _ _ _ hid]
            exact htx0
      · refine List.Pairwise.cons ?_ hinv.pending_nodup
        intro b hb _ hbne
        obtain ⟨tx0, htx0, _⟩ := hinv.pending_open b hb hbne
        obtain ⟨k, hk, hik⟩ := hinv.ids b.1 tx0 htx0
        intro he
        rw [hik] at he
        exact absurd (trxID_injective he) (Nat.ne_of_gt hk)
  | sagaStep id op rest now pre post hpend =>
      have hmem : (id, op :: rest) ∈ s.pending := by
        rw [hpend]; exact List.mem_append_right _ (List.mem_cons_self _ _)
      obtain ⟨tx, htx, htxP⟩ := hinv.pending_open _ hmem (by simp)
      have hshape := hinv.pending_shape _ hmem
      have hnodup := hinv.pending_nodup
      rw [hpend, List.pairwise_append] at hnodup
      obtain ⟨hpreP, hmidP, hcrossP⟩ := hnodup
      rw [List.pairwise_cons] at hmidP
      have hother : ∀ p, p ∈ pre ∨ p ∈ post → p.2 ≠ [] → p.1 ≠ id := by
        rintro p (hp | hp) hpne
        · exact hcrossP p hp (id, op :: rest)
            (List.mem_cons_self _ _) hpne (by simp)
        · exact Ne.symm (hmidP.1 p hp (by simp) hpne)
      have holdmem : ∀ p, p ∈ pre ∨ p ∈ post → p ∈ s.pending := by
        rintro p (hp | hp)
        · rw [hpend]; exact List.mem_append_left _ hp
        · rw [hpend]
          exact List.mem_append_right _ (List.mem_cons_of_mem _ hp)
      have hnewmem : ∀ p, p ∈ pre ++ (id, rest) :: post →
          p = (id, rest) ∨ (p ∈ pre ∨ p ∈ post) := by
        intro p hp
        rcases List.mem_append.mp hp with hp | hp
        · exact Or.inr (Or.inl hp)
        · rcases List.mem_cons.mp hp with hp | hp
          · exact Or.inl hp
          · exact Or.inr (Or.inr hp)
      have hnextID := applySagaOp_nextID id op now s.orch
      by_cases hop : isSetStatus op = true
      · -- the terminal status write: the script ends here
        have hrest : rest = [] := scriptShape_status_last hshape hop
        have hgood := scriptShape_head_good hshape
        obtain ⟨stt, r, rfl⟩ : ∃ stt r, op = SagaOp.setStatus stt r := by
          cases op with
          | setStatus stt r => exact ⟨stt, r, rfl⟩
          | addStep n => simp [isSetStatus] at hop
          | endStep n s e => simp [isSetStatus] at hop
          | setOrderID o => simp [isSetStatus] at hop
        have hterm : stt = TransactionStatusCompleted ∨
            stt = TransactionStatusFailed := hgood
        obtain ⟨tx', hl', hs', hc'⟩ :=
          applySagaOp_setStatus_terminal id stt r now s.orch tx htx hterm
        have hsttP : stt ≠ TransactionStatusPending := by
          rcases hterm with h | h <;> subst h <;> decide
        refine ⟨?_, ?_, ?_, ?_, ?_, ?_⟩
        · intro id2 tx2 h2
          rw [hnextID]
          by_cases hid : id2 = id
          · obtain ⟨k, hk, hik⟩ := hinv.ids id tx htx
            exact ⟨k, hk, hid ▸ hik⟩
          · rw [applySagaOp_lookup_ne _ _ _ _ _ hid] at h2
            exact hinv.ids id2 tx2 h2
        · intro id2 tx2 h2
          by_cases hid : id2 = id
          · subst hid
            rw [hl'] at h2
            injection h2 with h2
            subst h2
            rcases hterm with h | h <;> rw [hs', h]
            · exact Or.inr (Or.inl rfl)
            · exact Or.inr (Or.inr rfl)
          · rw [applySagaOp_lookup_ne _ _ _ _ _ hid] at h2
            exact hinv.status_valid id2 tx2 h2
        · intro id2 tx2 h2
          by_cases hid : id2 = id
          · subst hid
            rw [hl'] at h2
            injection h2 with h2
            subst h2
            rw [hs', hc']
            simp [hsttP]
          · rw [applySagaOp_lookup_ne _ _ _ _ _ hid] at h2
            exact hinv.completed_iff id2 tx2 h2
        · intro p hp
          rcases hnewmem p hp with hp | hp
          · rw [hp, hrest]; trivial
          · exact hinv.pending_shape p (holdmem p hp)
        · intro p hp hpne
          rcases hnewmem p hp with hp | hp
          · rw [hp] at hpne
            rw [hrest] at hpne
            exact absurd rfl hpne
          · obtain ⟨tx0, htx0, htx0P⟩ :=
              hinv.pending_open p (holdmem p hp) hpne
            refine ⟨tx0, ?_, htx0P⟩
            rw [applySagaOp_lookup_ne _ _ _ _ _ (hother p hp hpne)]
            exact htx0
        · have hpn := hinv.pending_nodup
          rw [hpend] at hpn
          exact pairwise_replace hpn
            (fun c hc => fun _ hcne => hc (by simp) hcne)
            (fun c hc => fun hcne _ => hc hcne (by simp))
      · -- a non-status mutation: the transaction stays PENDING
        have hop' : isSetStatus op = false := by
          revert hop; cases isSetStatus op <;> simp
        obtain ⟨tx', hl', hs', hc'⟩ :=
          applySagaOp_preserves_status id op now s.orch tx htx hop'
        refine ⟨?_, ?_, ?_, ?_, ?_, ?_⟩
        · intro id2 tx2 h2
          rw [hnextID]
          by_cases hid : id2 = id
          · obtain ⟨k, hk, hik⟩ := hinv.ids id tx htx
            exact ⟨k, hk, hid ▸ hik⟩
          · rw [applySagaOp_lookup_ne _ _ _ _ _ hid] at h2
            exact hinv.ids id2 tx2 h2
        · intro id2 tx2 h2
          by_cases hid : id2 = id
          · subst hid
            rw [hl'] at h2
            injection h2 with h2
            subst h2
            rw [hs', htxP]
            exact Or.inl rfl
          · rw [applySagaOp_lookup_ne _ _ _ _ _ hid] at h2
            exact hinv.status_valid id2 tx2 h2
        · intro id2 tx2 h2
          by_cases hid : id2 = id
          · subst hid
            rw [hl'] at h2
            injection h2 with h2
            subst h2
            rw [hs', hc']
            exact hinv.completed_iff _ tx htx
          · rw [applySagaOp_lookup_ne _ _ _ _ _ hid] at h2
            exact hinv.completed_iff id2 tx2 h2
        · intro p hp
          rcases hnewmem p hp with hp | hp
          · rw [hp]
            exact scriptShape_tail hshape
          · exact hinv.pending_shape p (holdmem p hp)
        · intro p hp hpne
          rcases hnewmem p hp with hp | hp
          · refine ⟨tx', ?_, by rw [hs']; exact htxP⟩
            rw [hp]
            exact hl'
          · obtain ⟨tx0, htx0, htx0P⟩ :=
              hinv.pending_open p (holdmem p hp) hpne
            refine ⟨tx0, ?_, htx0P⟩
            rw [applySagaOp_lookup_ne _ _ _ _ _ (hother p hp hpne)]
            exact htx0
        · have hpn := hinv.pending_nodup
          rw [hpend] at hpn
          exact pairwise_replace hpn
            (fun c hc => fun _ hcne => hc (by simp) hcne)
            (fun c hc => fun hcne _ => hc hcne (by simp))

theorem sysInv_reachable {s : SysState} (h : Reachable s) : SysInv s := by
  induction h with
  | refl => exact sysInv_init
  | tail h1 h2 ih => exact sysInv_step ih h2

theorem handler_state_lookup (st : OrchState) (req : CreateOrderRequest)
    (now : Nat) (h : validReq req) (x : String) :
    (createOrderSagaHandler st req now).state.transactions x =
      setTx st.transactions (trxID st.nextID) (handlerTx st req now) x := by
  rw [handler_valid st req now h]

/-- One step of the system never touches a transaction that has already
reached a terminal status: its stored snapshot survives unchanged. -/
theorem terminal_stable_step {s s' : SysState} (hinv : SysInv s)
    (hstep : SysStep s s') (id : String) (tx : Transaction)
    (htx : s.orch.transactions id = some tx)
    (hterm : tx.status = TransactionStatusCompleted ∨
      tx.status = TransactionStatusFailed) :
    s'.orch.transactions id = some tx := by
  cases hstep with
  | startSaga req env now hval =>
      obtain ⟨k, hk, hik⟩ := hinv.ids id tx htx
      have hne : id ≠ trxID s.orch.nextID := by
        intro he
        rw [hik] at he
        exact absurd (trxID_injective he) (Nat.ne_of_lt hk)
      show (createOrderSagaHandler s.orch req now).state.transactions id = some tx
      rw [handler_state_lookup s.orch req now hval id,
        setTx_lookup_ne _ _ _ _ hne]
      exact htx
  | sagaStep id' op rest now pre post hpend =>
      show (applySagaOp id' op now s.orch).transactions id = some tx
      by_cases hid : id = id'
      · exfalso
        subst hid
        have hmem : (id, op :: rest) ∈ s.pending := by
          rw [hpend]; exact List.mem_append_right _ (List.mem_cons_self _ _)
        obtain ⟨tx0, htx0, htx0P⟩ := hinv.pending_open _ hmem (by simp)
        have h0 := htx.symm.trans htx0
        injection h0 with h0
        subst h0
        rcases hterm with h | h
        · exact absurd (htx0P.symm.trans h) (by decide)
        · exact absurd (htx0P.symm.trans h) (by decide)
      · rw [applySagaOp_lookup_ne _ _ _ _ _ hid]
        exact htx

theorem terminal_stable {s s' : SysState} (hs : Reachable s)
    (hss : Relation.ReflTransGen SysStep s s') (id : String) (tx : Transaction)
    (htx : s.orch.transactions id = some tx)
    (hterm : tx.status = TransactionStatusCompleted ∨
      tx.status = TransactionStatusFailed) :
    s'.orch.transactions id = some tx := by
  induction hss with
  | refl => exact htx
  | tail h1 hstep ih =>
      exact terminal_stable_step (sysInv_reachable (hs.trans h1)) hstep id tx ih
        hterm

/-- **C6.** In every reachable state each stored transaction's status is
PENDING, COMPLETED or FAILED and its completion timestamp is unset
exactly when it is PENDING; once COMPLETED or FAILED, the whole stored
snapshot — status included — survives every further system step
unchanged, so repeated status queries of a terminal transaction return
identical snapshots. -/
theorem transaction_status_invariant (s s' : SysState) (hs : Reachable s)
    (hss : Relation.ReflTransGen SysStep s s') (id : String) (tx : Transaction)
    (htx : s.orch.transactions id = some tx) :
    (tx.status = TransactionStatusPending ∨
      tx.status = TransactionStatusCompleted ∨
      tx.status = TransactionStatusFailed) ∧
    (tx.completedAt = none ↔ tx.status = TransactionStatusPending) ∧
    ((tx.status = TransactionStatusCompleted ∨
        tx.status = TransactionStatusFailed) →
      s'.orch.transactions id = some tx) :=
  ⟨(sysInv_reachable hs).status_valid id tx htx,
   (sysInv_reachable hs).completed_iff id tx htx,
   fun hterm => terminal_stable hs hss id tx htx hterm⟩

/-- The system state after one accepted start-saga request against the
fresh orchestrator. -/
def sys1 : SysState :=
  { orch := (createOrderSagaHandler initState testReq 0).state
    pending := [(trxID 1, sagaScript envAllOk)] }

theorem reachable_sys1 : Reachable sys1 :=
  Relation.ReflTransGen.single
    (SysStep.startSaga initSys testReq envAllOk 0 (by decide))

/-- Witness for `transaction_status_invariant` at the reachable state
`sys1` holding the freshly created PENDING transaction. -/
theorem transaction_status_invariant_witness :
    Reachable sys1 ∧ sys1.orch.transactions "TRX-1" = some testTx ∧
    ((testTx.status = TransactionStatusPending ∨
      testTx.status = TransactionStatusCompleted ∨
      testTx.status = TransactionStatusFailed) ∧
     (testTx.completedAt = none ↔ testTx.status = TransactionStatusPending) ∧
     ((testTx.status = TransactionStatusCompleted ∨
         testTx.status = TransactionStatusFailed) →
       sys1.orch.transactions "TRX-1" = some testTx)) :=
  ⟨reachable_sys1, by decide,
   transaction_status_invariant sys1 sys1 reachable_sys1
     Relation.ReflTransGen.refl "TRX-1" testTx (by decide)⟩

theorem sysStep_nextID_mono {s s' : SysState} (h : SysStep s s') :
    s.orch.nextID ≤ s'.orch.nextID := by
  cases h with
  | startSaga req env now hval =>
      show s.orch.nextID ≤ (createOrderSagaHandler s.orch req now).state.nextID
      rw [handler_valid s.orch req now hval]
      exact Nat.le_succ _
  | sagaStep id op rest now pre post hpend =>
      show s.orch.nextID ≤ (applySagaOp id op now s.orch).nextID
      rw [applySagaOp_nextID]

theorem rtg_nextID_mono {s s' : SysState}
    (h : Relation.ReflTransGen SysStep s s') :
    s.orch.nextID ≤ s'.orch.nextID := by
  induction h with
  | refl => exact le_rfl
  | tail h1 hstep ih => exact le_trans ih (sysStep_nextID_mono hstep)

/-- A stored transaction id is never deleted by any system step. -/
theorem sysStep_keeps_keys {s s' : SysState} (h : SysStep s s') (id : String)
    (tx : Transaction) (htx : s.orch.transactions id = some tx) :
    ∃ tx', s'.orch.transactions id = some tx' := by
  cases h with
  | startSaga req env now hval =>
      by_cases hid : id = trxID s.orch.nextID
      · refine ⟨handlerTx s.orch req now, ?_⟩
        show (createOrderSagaHandler s.orch req now).state.transactions id = _
        rw [handler_state_lookup s.orch req now hval id, hid, setTx_lookup_same]
      · refine ⟨tx, ?_⟩
        show (createOrderSagaHandler s.orch req now).state.transactions id = _
        rw [handler_state_lookup s.orch req now hval id,
          setTx_lookup_ne _ _ _ _ hid]
        exact htx
  | sagaStep id' op rest now pre post hpend =>
      by_cases hid : id = id'
      · subst hid
        exact applySagaOp_isSome id op now s.orch tx htx
      · refine ⟨tx, ?_⟩
        show (applySagaOp id' op now s.orch).transactions id = _
        rw [applySagaOp_lookup_ne _ _ _ _ _ hid]
        exact htx

theorem rtg_keeps_keys {s s' : SysState}
    (h : Relation.ReflTransGen SysStep s s') (id : String) (tx : Transaction)
    (htx : s.orch.transactions id = some tx) :
    ∃ tx', s'.orch.transactions id = some tx' := by
  induction h with
  | refl => exact ⟨tx, htx⟩
  | tail h1 hstep ih =>
      obtain ⟨tx1, htx1⟩ := ih
      exact sysStep_keeps_keys hstep id tx1 htx1

/-- **C8.** In any reachable state a valid start-saga request returns a
PENDING transaction whose id is `TRX-<nextID>`: that id is not in the
store now and was not in the store in any earlier state of the run; and
any later successful start-saga request (after the spawned saga is added
and any number of further steps) receives a distinct id with a strictly
larger sequence number. -/
theorem start_saga_fresh_ids (s : SysState) (hs : Reachable s)
    (req : CreateOrderRequest) (now : Nat) (hv : validReq req)
    (tx : Transaction)
    (h0 : (createOrderSagaHandler s.orch req now).result = .accepted tx) :
    tx.status = TransactionStatusPending ∧
    tx.id = trxID s.orch.nextID ∧
    s.orch.transactions tx.id = none ∧
    (∀ s0, Relation.ReflTransGen SysStep s0 s →
      s0.orch.transactions tx.id = none) ∧
    (∀ env s2 req2 now2 tx2, validReq req2 →
      Relation.ReflTransGen SysStep
        { orch := (createOrderSagaHandler s.orch req now).state
          pending := (trxID s.orch.nextID, sagaScript env) :: s.pending } s2 →
      (createOrderSagaHandler s2.orch req2 now2).result = .accepted tx2 →
      tx2.id = trxID s2.orch.nextID ∧ s.orch.nextID < s2.orch.nextID ∧
      tx.id ≠ tx2.id) := by
  rw [handler_valid s.orch req now hv] at h0
  simp only [HandlerResult.accepted.injEq] at h0
  subst h0
  have hfresh : s.orch.transactions (trxID s.orch.nextID) = none := by
    cases hlook : s.orch.transactions (trxID s.orch.nextID) with
    | none => rfl
    | some t =>
        obtain ⟨k, hk, hik⟩ := (sysInv_reachable hs).ids _ t hlook
        exact absurd (trxID_injective hik.symm) (Nat.ne_of_lt hk)
  refine ⟨rfl, rfl, hfresh, ?_, ?_⟩
  · intro s0 hs0
    show s0.orch.transactions (trxID s.orch.nextID) = none
    cases hlook0 : s0.orch.transactions (trxID s.orch.nextID) with
    | none => rfl
    | some t0 =>
        obtain ⟨t1, ht1⟩ := rtg_keeps_keys hs0 _ t0 hlook0
        exact absurd (hfresh.symm.trans ht1) (by simp)
  · intro env s2 req2 now2 tx2 hv2 hsteps h2
    rw [handler_valid s2.orch req2 now2 hv2] at h2
    simp only [HandlerResult.accepted.injEq] at h2
    subst h2
    have hmono : (createOrderSagaHandler s.orch req now).state.nextID ≤
        s2.orch.nextID := rtg_nextID_mono hsteps
    have hnid1 : (createOrderSagaHandler s.orch req now).state.nextID =
        s.orch.nextID + 1 := by
      rw [handler_valid s.orch req now hv]
    rw [hnid1] at hmono
    have hlt : s.orch.nextID < s2.orch.nextID := hmono
    refine ⟨rfl, hlt, ?_⟩
    intro he
    have he2 : trxID s.orch.nextID = trxID s2.orch.nextID := he
    exact absurd (trxID_injective he2) (Nat.ne_of_lt hlt)

/-- Witness for `start_saga_fresh_ids` at the initial state. -/
theorem start_saga_fresh_ids_witness :
    Reachable initSys ∧ validReq testReq ∧
    (createOrderSagaHandler initSys.orch testReq 0).result = .accepted testTx ∧
    (testTx.status = TransactionStatusPending ∧
     testTx.id = trxID initSys.orch.nextID ∧
     initSys.orch.transactions testTx.id = none ∧
     (∀ s0, Relation.ReflTransGen SysStep s0 initSys →
       s0.orch.transactions testTx.id = none) ∧
     (∀ env s2 req2 now2 tx2, validReq req2 →
       Relation.ReflTransGen SysStep
         { orch := (createOrderSagaHandler initSys.orch testReq 0).state
           pending := (trxID initSys.orch.nextID, sagaScript env) ::
             initSys.pending } s2 →
       (createOrderSagaHandler s2.orch req2 now2).result = .accepted tx2 →
       tx2.id = trxID s2.orch.nextID ∧
       initSys.orch.nextID < s2.orch.nextID ∧ testTx.id ≠ tx2.id)) :=
  ⟨Relation.ReflTransGen.refl, by decide, by decide,
   by
    have h := start_saga_fresh_ids initSys Relation.ReflTransGen.refl testReq 0
      (by decide) testTx (by decide)
    exact h⟩
